import Mathlib

/-!
Formal model of the SpeedDating repository: the evaluation harness
`evaluation_analysis.py` and the custom nearest-neighbor classifier of the
`classification` module it imports.  The `classification` source file is not
part of the repository snapshot, so the classifier is modelled from the
specification; the harness is embedded from `evaluation_analysis.py`
directly.  Machine floats are modelled by exact rationals, and the float
square root by the exact rational square root `Rat.sqrt`; external library
collaborators (seeded shuffling, silhouette scoring) are modelled as
deterministic function parameters.
-/

/-- Modelled from the spec: the error taxonomy of the missing
`classification` module — `DataShapeError`, `NotFittedError`,
`InvalidKError`. -/
inductive KNNError where
  | dataShapeError
  | notFittedError
  | invalidKError
deriving DecidableEq

/-- Modelled from the spec: the fitted state of `KNNClassifier` — feature
rows and index-aligned labels, stored verbatim. -/
structure KNNState where
  features : List (List ℚ)
  labels : List ℤ
deriving DecidableEq

/-- Modelled from the spec: the `KNNClassifier` of the missing
`classification` module, either unfitted (`none`) or fitted. -/
structure KNNClassifier where
  fitted : Option KNNState
deriving DecidableEq

/-- Modelled from the spec: `fit` checks that the feature-row count and the
label count match, failing with `DataShapeError` otherwise, and stores the
rows and labels verbatim (no scaling, no copying transformation). -/
def KNNClassifier.fit (_c : KNNClassifier) (X : List (List ℚ)) (y : List ℤ) :
    Except KNNError KNNClassifier :=
  if X.length = y.length then Except.ok ⟨some ⟨X, y⟩⟩
  else Except.error KNNError.dataShapeError

/-- Squared Euclidean distance between two feature vectors: the sum of
squared per-feature differences, every column participating equally.  The
spec's Euclidean distance is its square root, a strictly monotone function
of this value, so all distance comparisons agree. -/
def dist2 (a b : List ℚ) : ℚ := (List.zipWith (fun x z => (x - z) ^ 2) a b).sum

/-- Row `i` of a feature table. -/
def rowAt (X : List (List ℚ)) (i : ℕ) : List ℚ := X.getD i []

/-- Squared distance from the query to training row `i`. -/
def qdist (X : List (List ℚ)) (q : List ℚ) (i : ℕ) : ℚ := dist2 q (rowAt X i)

/-- Modelled from the spec: the ranking relation on training-row indices —
strictly smaller distance first, equal distances kept in original row order.
This is the extensional meaning of a stable ascending sort by distance. -/
def nbrLE (X : List (List ℚ)) (q : List ℚ) (i j : ℕ) : Prop :=
  qdist X q i < qdist X q j ∨ (qdist X q i = qdist X q j ∧ i ≤ j)

instance (X : List (List ℚ)) (q : List ℚ) : DecidableRel (nbrLE X q) := fun i j =>
  inferInstanceAs (Decidable (qdist X q i < qdist X q j ∨ (qdist X q i = qdist X q j ∧ i ≤ j)))

instance (X : List (List ℚ)) (q : List ℚ) : IsTrans ℕ (nbrLE X q) :=
  ⟨by
    intro a b c hab hbc
    rcases hab with h1 | ⟨h1, h1i⟩ <;> rcases hbc with h2 | ⟨h2, h2i⟩
    · exact Or.inl (lt_trans h1 h2)
    · exact Or.inl (by rw [← h2]; exact h1)
    · exact Or.inl (by rw [h1]; exact h2)
    · exact Or.inr ⟨h1.trans h2, le_trans h1i h2i⟩⟩

instance (X : List (List ℚ)) (q : List ℚ) : IsTotal ℕ (nbrLE X q) :=
  ⟨by
    intro a b
    rcases lt_trichotomy (qdist X q a) (qdist X q b) with h | h | h
    · exact Or.inl (Or.inl h)
    · rcases le_total a b with hi | hi
      · exact Or.inl (Or.inr ⟨h, hi⟩)
      · exact Or.inr (Or.inr ⟨h.symm, hi⟩)
    · exact Or.inr (Or.inl h)⟩

/-- Modelled from the spec: all training-row indices, ranked by ascending
distance to the query with ties in original order (stable sort). -/
def neighborOrder (X : List (List ℚ)) (q : List ℚ) : List ℕ :=
  List.insertionSort (nbrLE X q) (List.range X.length)

/-- Modelled from the spec: the `k` nearest training-row indices. -/
def selectK (X : List (List ℚ)) (q : List ℚ) (k : ℕ) : List ℕ :=
  (neighborOrder X q).take k

/-- Modelled from the spec: the labels of the `k` selected rows, listed in
ascending-distance order. -/
def voteLabels (X : List (List ℚ)) (y : List ℤ) (q : List ℚ) (k : ℕ) : List ℤ :=
  (selectK X q k).map (fun i => y.getD i 0)

/-- Largest label multiplicity occurring in a vote list. -/
def maxCount (L : List ℤ) : ℕ := (L.map (fun l => L.count l)).foldr max 0

/-- Modelled from the spec: the majority vote — the first label, in
ascending-distance order, whose multiplicity is maximal; a multiplicity tie
is thereby broken in favour of the tied label group containing the nearest
row. -/
def majority (L : List ℤ) : ℤ :=
  (L.find? (fun l => L.count l == maxCount L)).getD 0

/-- Modelled from the spec: `predict` — `NotFittedError` before a successful
fit, `InvalidKError` for `k ≤ 0` or `k` larger than the number of stored
rows, `DataShapeError` on a query dimensionality mismatch, and otherwise the
majority label of the `k` nearest stored rows. -/
def KNNClassifier.predict (c : KNNClassifier) (q : List ℚ) (k : ℤ) :
    Except KNNError ℤ :=
  match c.fitted with
  | none => Except.error KNNError.notFittedError
  | some st =>
    if k ≤ 0 ∨ (st.features.length : ℤ) < k then Except.error KNNError.invalidKError
    else if st.features.all (fun r => r.length == q.length) then
      Except.ok (majority (voteLabels st.features st.labels q k.toNat))
    else Except.error KNNError.dataShapeError

deriving instance DecidableEq for Except

/-- Number of feature columns of a table: the length of its first row. -/
def nCols (X : List (List ℚ)) : ℕ := (X.headD []).length

/-- Values of column `j` of a table. -/
def colVals (X : List (List ℚ)) (j : ℕ) : List ℚ := X.map (fun r => r.getD j 0)

/-- Column mean, as computed by the library `StandardScaler`. -/
def colMean (X : List (List ℚ)) (j : ℕ) : ℚ := (colVals X j).sum / (X.length : ℚ)

/-- Column population variance (`ddof = 0`), as computed by the library
`StandardScaler`. -/
def colVar (X : List (List ℚ)) (j : ℕ) : ℚ :=
  ((colVals X j).map (fun x => (x - colMean X j) ^ 2)).sum / (X.length : ℚ)

/-- Column scale: the square root of the column variance, with the
`StandardScaler` convention that a zero-variance column is scaled by `1`.
The machine-float square root is modelled by the exact rational square
root `Rat.sqrt`. -/
def colScale (X : List (List ℚ)) (j : ℕ) : ℚ :=
  if colVar X j = 0 then 1 else Rat.sqrt (colVar X j)

/-- Transformation of the table `B` using the column statistics fitted on
the table `S`: per column, subtract the mean of `S` and divide by the scale
of `S` (the library scaler fitted on `S` and applied to `B`). -/
def transformWith (S B : List (List ℚ)) : List (List ℚ) :=
  B.map (fun r => (List.range (nCols S)).map (fun j => (r.getD j 0 - colMean S j) / colScale S j))

/-- Embeds `StandardScaler().fit_transform(X)` as used throughout
`evaluation_analysis.py`: the statistics are fitted on `X` itself and
immediately applied to `X`. -/
def fit_transform (X : List (List ℚ)) : List (List ℚ) := transformWith X X

/-- Embeds the sklearn `KFold` fold sizes: `n % k` folds of size
`n / k + 1` followed by folds of size `n / k`. -/
def foldSizes (n k : ℕ) : List ℕ :=
  (List.range k).map (fun i => if i < n % k then n / k + 1 else n / k)

/-- Splits a list into consecutive chunks of the given sizes. -/
def chunksBy : List ℕ → List ℕ → List (List ℕ)
  | [], _ => []
  | s :: ss, l => l.take s :: chunksBy ss (l.drop s)

/-- Embeds `KFold(10, shuffle=True, random_state=42).split`: the shuffled
index sequence `perm` is cut into `k` consecutive test chunks; each fold's
training indices are the remaining indices in ascending order (the library
builds them from a boolean mask over `arange(n)`). -/
def kfoldSplits (perm : List ℕ) (k : ℕ) : List (List ℕ × List ℕ) :=
  (chunksBy (foldSizes perm.length k) perm).map
    (fun t => ((List.range perm.length).filter (fun i => ! t.contains i), t))

/-- Embeds `accuracy_score(y_test, y_pred)`: the fraction of test positions
whose prediction returned exactly the true label. -/
def accuracy_score (yts : List ℤ) (preds : List (Except KNNError ℤ)) : ℚ :=
  (((List.zip yts preds).filter
      (fun p => match p.2 with | Except.ok l => l == p.1 | Except.error _ => false)).length : ℚ) /
    (yts.length : ℚ)

/-- Embeds one iteration of the fold loop of `k_fold_cv_knn`
(`evaluation_analysis.py` lines 143-159): slice the train/test partitions,
z-score each partition with its own freshly fitted scaler (the source calls
`fit_transform` on `X_train` and again on `X_test`), fit a fresh
`KNNClassifier` on the scaled training partition, call `predict` once per
scaled test row with `n_neighbors`, and score accuracy against the test
labels. -/
def foldStep (X : List (List ℚ)) (y : List ℤ) (n_neighbors : ℤ)
    (f : List ℕ × List ℕ) : ℚ :=
  let X_train := f.1.map (fun i => X.getD i [])
  let X_test := f.2.map (fun i => X.getD i [])
  let y_train := f.1.map (fun i => y.getD i 0)
  let y_test := f.2.map (fun i => y.getD i 0)
  let X_train_scaled := fit_transform X_train
  let X_test_scaled := fit_transform X_test
  match KNNClassifier.fit ⟨none⟩ X_train_scaled y_train with
  | Except.error _ => 0
  | Except.ok knn =>
      accuracy_score y_test (X_test_scaled.map (fun r => knn.predict r n_neighbors))

/-- Embeds `k_fold_cv_knn`: ten shuffled seeded folds, one fresh classifier
per fold, and the arithmetic mean (`sum(accuracy) / len(accuracy)`) of the
per-fold accuracies.  The seeded shuffle performed inside
`KFold(10, shuffle=True, random_state=42)` is modelled by the deterministic
collaborator `rng`, applied at seed `42` to the number of rows. -/
def k_fold_cv_knn (rng : ℤ → ℕ → List ℕ) (X : List (List ℚ)) (y : List ℤ)
    (n_neighbors : ℤ) : ℚ :=
  let folds := kfoldSplits (rng 42 X.length) 10
  let accuracy := folds.map (foldStep X y n_neighbors)
  accuracy.sum / (accuracy.length : ℚ)

/-- Embeds the index selection of
`train_test_split(X, y, test_size=0.3, random_state=42)`: the seeded
permutation's first `ceil(0.3 * n)` entries are the test indices, the rest
are the training indices. -/
def train_test_split_indices (rng : ℤ → ℕ → List ℕ) (n : ℕ) : List ℕ × List ℕ :=
  let perm := rng 42 n
  let n_test := (3 * n + 9) / 10
  (perm.drop n_test, perm.take n_test)

/-- Observable outcome of `evaluate_analyze_knn`: the held-out labels, the
per-row predictions, the cross-validated accuracy, and the argument pairs
handed to `roc_curve` and to `roc_auc_score`. -/
structure EvalKNNOutcome where
  y_test : List ℤ
  y_pred : List (Except KNNError ℤ)
  cv_accuracy : ℚ
  roc_args : List ℤ × List (Except KNNError ℤ)
  auc_args : List ℤ × List (Except KNNError ℤ)

/-- Embeds `evaluate_analyze_knn` on the feature table `X` (the data minus
the `dec` column) and the label column `y` (`dec`): a 70/30 split seeded
with `42`, separate `fit_transform` scalings of the train and of the test
partition (the source refits the scaler on the test partition), one fresh
classifier, one `predict` per scaled test row with `n_neighbors = 5`,
ten-fold cross-validated accuracy on the raw data, and ROC/AUC reporting on
`(y_test, y_pred)` — the hard label predictions are passed to `roc_curve`
and `roc_auc_score` unchanged. -/
def evaluate_analyze_knn (rng : ℤ → ℕ → List ℕ) (X : List (List ℚ)) (y : List ℤ) :
    EvalKNNOutcome :=
  let n_neighbors : ℤ := 5
  let idx := train_test_split_indices rng X.length
  let X_train := idx.1.map (fun i => X.getD i [])
  let X_test := idx.2.map (fun i => X.getD i [])
  let y_train := idx.1.map (fun i => y.getD i 0)
  let y_test := idx.2.map (fun i => y.getD i 0)
  let X_train_scaled := fit_transform X_train
  let X_test_scaled := fit_transform X_test
  let y_pred :=
    match KNNClassifier.fit ⟨none⟩ X_train_scaled y_train with
    | Except.error _ => []
    | Except.ok knn => X_test_scaled.map (fun r => knn.predict r n_neighbors)
  { y_test := y_test
    y_pred := y_pred
    cv_accuracy := k_fold_cv_knn rng X y n_neighbors
    roc_args := (y_test, y_pred)
    auc_args := (y_test, y_pred) }

/-- Embeds the `KMeans(n_clusters=n_clusters, random_state=42)` model
configuration built by `trained_clustering_model`. -/
structure KMeansSpec where
  n_clusters : ℕ
  random_state : ℤ
deriving DecidableEq

/-- Embeds `trained_clustering_model`: a KMeans model with the requested
cluster count and the fixed seed `42`. -/
def trained_clustering_model (n_clusters : ℕ) : KMeansSpec := ⟨n_clusters, 42⟩

/-- Embeds `tune_clustering_hyperparameter`: the silhouette score of the
seeded KMeans model on the scaled data is an external library collaborator,
modelled by the deterministic function `sil`; the candidates are
`range(2, 30)` and `pandas.Series.idxmax` keeps the first — hence the
smallest — candidate among ties. -/
def tune_clustering_hyperparameter (sil : ℕ → ℚ) : ℕ :=
  (List.range' 2 28).foldl (fun best k => if sil best < sil k then k else best) 2

/-- Observable outcome of `evaluate_analyze_clustering`: the tuned cluster
count, the trained model configuration, and the cluster count passed to the
visualization. -/
structure ClusteringOutcome where
  tuned_k : ℕ
  model : KMeansSpec
  visualized_k : ℕ
deriving DecidableEq

/-- Embeds `evaluate_analyze_clustering`: scale the data, tune the cluster
count by silhouette score, train the seeded model with the tuned count, and
visualize with the same count.  `sil` is the silhouette collaborator on the
scaled data. -/
def evaluate_analyze_clustering (sil : ℕ → ℚ) : ClusteringOutcome :=
  let k := tune_clustering_hyperparameter sil
  { tuned_k := k, model := trained_clustering_model k, visualized_k := k }

/-- One row of the preprocessed dataset, as used by the module-level
script: the `gender` and `age` columns (integers after the boolean
coercion), the remaining feature columns, and the `dec` target column. -/
structure Row where
  gender : ℤ
  age : ℤ
  rest : List ℚ
  dec : ℤ
deriving DecidableEq

/-- Embeds `preprocessed_data[preprocessed_data['gender'] == 1]`. -/
def male_data (d : List Row) : List Row := d.filter (fun r => r.gender == 1)

/-- Embeds `preprocessed_data[preprocessed_data['gender'] == 0]`. -/
def female_data (d : List Row) : List Row := d.filter (fun r => r.gender == 0)

/-- Embeds the `20 <= age < 25` slice. -/
def data_20_to_24 (d : List Row) : List Row :=
  d.filter (fun r => decide (20 ≤ r.age ∧ r.age < 25))

/-- Embeds the `25 <= age < 30` slice. -/
def data_25_to_29 (d : List Row) : List Row :=
  d.filter (fun r => decide (25 ≤ r.age ∧ r.age < 30))

/-- Embeds the `age >= 30` slice. -/
def data_over_30 (d : List Row) : List Row := d.filter (fun r => decide (30 ≤ r.age))

/-- Embeds the module-level script's sequence of clustering analyses: each
entry is the data slice passed to `evaluate_analyze_clustering` together
with its `label` argument, in source order (lines 239, 249, 250, 262, 263
and 264 of `evaluation_analysis.py`; line 264 passes `data_25_to_29` with
the label `age over 30`). -/
def clustering_calls (d : List Row) : List (List Row × String) :=
  [(d, "all"), (male_data d, "male"), (female_data d, "female"),
   (data_20_to_24 d, "age from 20 to 24"), (data_25_to_29 d, "age from 25 to 29"),
   (data_25_to_29 d, "age over 30")]

/-- Embeds the module-level script's sequence of KNN analyses: each entry is
the data slice passed to `evaluate_analyze_knn` together with its `label`
argument, in source order (lines 242, 253, 254, 267, 268, 269). -/
def knn_calls (d : List Row) : List (List Row × String) :=
  [(d, "all"), (male_data d, "male"), (female_data d, "female"),
   (data_20_to_24 d, "age from 20 to 24"), (data_25_to_29 d, "age from 25 to 29"),
   (data_over_30 d, "age over 30")]

/-- Helper: the first-occurrence argmax fold underlying
`tune_clustering_hyperparameter` (`pandas.Series.idxmax` semantics). -/
def idxmaxFold (f : ℕ → ℚ) (b : ℕ) (l : List ℕ) : ℕ :=
  l.foldl (fun best k => if f best < f k then k else best) b

theorem sanity_end_to_end_A :
    (KNNClassifier.mk (some ⟨[[0, 0], [1, 0], [5, 5], [6, 5]], [0, 0, 1, 1]⟩)).predict
      [1/2, 0] 1 = Except.ok 0 := by
  norm_num [KNNClassifier.predict, majority, maxCount, voteLabels, selectK, neighborOrder,
    List.insertionSort, List.orderedInsert, nbrLE, qdist, rowAt, dist2, List.range_succ]

theorem sanity_end_to_end_B :
    (KNNClassifier.mk (some ⟨[[0, 0], [1, 0], [5, 5], [6, 5]], [0, 0, 1, 1]⟩)).predict
      [11/2, 5] 1 = Except.ok 1 := by
  norm_num [KNNClassifier.predict, majority, maxCount, voteLabels, selectK, neighborOrder,
    List.insertionSort, List.orderedInsert, nbrLE, qdist, rowAt, dist2, List.range_succ]

theorem dist2_nonneg : ∀ (a b : List ℚ), 0 ≤ dist2 a b := by
  intro a
  induction a with
  | nil => intro b; simp [dist2]
  | cons x xs ih =>
    intro b
    cases b with
    | nil => simp [dist2]
    | cons z zs =>
      have h := ih zs
      simp only [dist2, List.zipWith_cons_cons, List.sum_cons] at *
      exact add_nonneg (sq_nonneg _) h

theorem qdist_nonneg (X : List (List ℚ)) (q : List ℚ) (i : ℕ) : 0 ≤ qdist X q i :=
  dist2_nonneg _ _

theorem foldr_max_mem : ∀ (l : List ℕ), l ≠ [] → l.foldr max 0 ∈ l := by
  intro l
  induction l with
  | nil => intro h; exact absurd rfl h
  | cons a t ih =>
    intro _
    cases t with
    | nil => simp
    | cons b u =>
      rcases le_total a ((b :: u).foldr max 0) with h | h
      · have he : (a :: b :: u).foldr max 0 = (b :: u).foldr max 0 := by
          simp only [List.foldr_cons]
          exact max_eq_right h
        rw [he]
        exact List.mem_cons_of_mem _ (ih (by simp))
      · have he : (a :: b :: u).foldr max 0 = a := by
          simp only [List.foldr_cons]
          exact max_eq_left h
        rw [he]
        exact List.mem_cons_self _ _

theorem le_foldr_max : ∀ (l : List ℕ) (x : ℕ), x ∈ l → x ≤ l.foldr max 0 := by
  intro l
  induction l with
  | nil => intro x hx; cases hx
  | cons a t ih =>
    intro x hx
    rcases List.mem_cons.mp hx with rfl | h
    · exact le_max_left _ _
    · exact le_trans (ih x h) (le_max_right _ _)

theorem maxCount_attained (L : List ℤ) (hL : L ≠ []) : ∃ l ∈ L, L.count l = maxCount L := by
  have hmn : L.map (fun l => L.count l) ≠ [] := by
    cases L with
    | nil => exact absurd rfl hL
    | cons a t => simp
  have hm := foldr_max_mem _ hmn
  rcases List.mem_map.mp hm with ⟨l, hl, he⟩
  exact ⟨l, hl, he⟩

theorem count_le_maxCount (L : List ℤ) (l : ℤ) (hl : l ∈ L) : L.count l ≤ maxCount L :=
  le_foldr_max _ _ (List.mem_map_of_mem _ hl)

theorem majority_spec (L : List ℤ) (hL : L ≠ []) :
    ∃ pre post, L = pre ++ majority L :: post ∧
      (∀ l ∈ pre, L.count l < L.count (majority L)) ∧
      ∀ l ∈ L, L.count l ≤ L.count (majority L) := by
  rcases maxCount_attained L hL with ⟨m, hm, hcm⟩
  have hfind : ∃ res, L.find? (fun l => L.count l == maxCount L) = some res := by
    cases hf : L.find? (fun l => L.count l == maxCount L) with
    | some res => exact ⟨res, rfl⟩
    | none =>
      exfalso
      have := List.find?_eq_none.mp hf m hm
      simp [hcm] at this
  rcases hfind with ⟨res, hres⟩
  have hmaj : majority L = res := by simp [majority, hres]
  have hcres : L.count res = maxCount L := by simpa using List.find?_some hres
  rcases List.find?_eq_some.mp hres with ⟨_, pre, post, hsplit, hpre⟩
  refine ⟨pre, post, by rw [hmaj]; exact hsplit, ?_, ?_⟩
  · intro l hlpre
    have hne : L.count l ≠ maxCount L := by simpa using hpre l hlpre
    have hle : L.count l ≤ maxCount L :=
      count_le_maxCount L l (by rw [hsplit]; exact List.mem_append_left _ hlpre)
    rw [hmaj, hcres]
    exact lt_of_le_of_ne hle hne
  · intro l hlL
    rw [hmaj, hcres]
    exact count_le_maxCount L l hlL

theorem majority_mem (L : List ℤ) (hL : L ≠ []) : majority L ∈ L := by
  rcases majority_spec L hL with ⟨pre, post, hsplit, -, -⟩
  have h : majority L ∈ pre ++ majority L :: post :=
    List.mem_append_right _ (List.mem_cons_self _ _)
  rwa [← hsplit] at h

theorem neighborOrder_perm (X : List (List ℚ)) (q : List ℚ) :
    (neighborOrder X q).Perm (List.range X.length) :=
  List.perm_insertionSort _ _

theorem neighborOrder_sorted (X : List (List ℚ)) (q : List ℚ) :
    List.Sorted (nbrLE X q) (neighborOrder X q) :=
  List.sorted_insertionSort _ _

theorem neighborOrder_nodup (X : List (List ℚ)) (q : List ℚ) :
    (neighborOrder X q).Nodup :=
  (neighborOrder_perm X q).nodup_iff.mpr (List.nodup_range _)

theorem neighborOrder_length (X : List (List ℚ)) (q : List ℚ) :
    (neighborOrder X q).length = X.length := by
  simpa using (neighborOrder_perm X q).length_eq

theorem selectK_length (X : List (List ℚ)) (q : List ℚ) (k : ℕ) (hk : k ≤ X.length) :
    (selectK X q k).length = k := by
  simp [selectK, List.length_take, neighborOrder_length, Nat.min_eq_left hk]

theorem selectK_nodup (X : List (List ℚ)) (q : List ℚ) (k : ℕ) : (selectK X q k).Nodup :=
  (List.take_sublist _ _).nodup (neighborOrder_nodup X q)

theorem selectK_mem_lt (X : List (List ℚ)) (q : List ℚ) (k : ℕ) :
    ∀ i ∈ selectK X q k, i < X.length := by
  intro i hi
  have : i ∈ neighborOrder X q := List.take_subset _ _ hi
  exact List.mem_range.mp ((neighborOrder_perm X q).mem_iff.mp this)

theorem selectK_sorted (X : List (List ℚ)) (q : List ℚ) (k : ℕ) :
    List.Sorted (nbrLE X q) (selectK X q k) :=
  List.Pairwise.sublist (List.take_sublist _ _) (neighborOrder_sorted X q)

theorem selectK_boundary (X : List (List ℚ)) (q : List ℚ) (k : ℕ) :
    ∀ i ∈ selectK X q k, ∀ j : ℕ, j < X.length → j ∉ selectK X q k → nbrLE X q i j := by
  intro i hi j hj hnj
  have hsplit := List.take_append_drop k (neighborOrder X q)
  have hpw : List.Pairwise (nbrLE X q)
      (List.take k (neighborOrder X q) ++ List.drop k (neighborOrder X q)) := by
    rw [hsplit]; exact neighborOrder_sorted X q
  rcases List.pairwise_append.mp hpw with ⟨-, -, hcross⟩
  have hjo : j ∈ neighborOrder X q :=
    (neighborOrder_perm X q).mem_iff.mpr (List.mem_range.mpr hj)
  have : j ∈ List.take k (neighborOrder X q) ∨ j ∈ List.drop k (neighborOrder X q) := by
    rw [← List.mem_append, hsplit]; exact hjo
  rcases this with hjt | hjd
  · exact absurd hjt hnj
  · exact hcross i hi j hjd

theorem fit_ok_iff (X : List (List ℚ)) (y : List ℤ) (c : KNNClassifier) :
    KNNClassifier.fit ⟨none⟩ X y = Except.ok c ↔
      X.length = y.length ∧ c = ⟨some ⟨X, y⟩⟩ := by
  by_cases h : X.length = y.length <;> simp [KNNClassifier.fit, h, eq_comm]

theorem predict_fitted_ok (st : KNNState) (q : List ℚ) (k : ℤ)
    (hk : ¬(k ≤ 0 ∨ (st.features.length : ℤ) < k))
    (hdim : st.features.all (fun r => r.length == q.length) = true) :
    (KNNClassifier.mk (some st)).predict q k =
      Except.ok (majority (voteLabels st.features st.labels q k.toNat)) := by
  simp [KNNClassifier.predict, hk, hdim]

theorem voteLabels_length (X : List (List ℚ)) (y : List ℤ) (q : List ℚ) (k : ℕ)
    (hk : k ≤ X.length) : (voteLabels X y q k).length = k := by
  simp [voteLabels, selectK_length X q k hk]

/-- C1: for a fitted training set, a query of matching dimensionality and a
valid `k`, `predict` succeeds; the `k` selected training rows are distinct,
are listed in ascending Euclidean distance (with original row order at equal
distances), and every selected row beats every unselected row either
strictly in Euclidean distance or, at exactly equal distance, by original
row order (the stable-sort boundary rule); comparisons of the square-rooted
distances coincide with the model's squared-distance comparisons; and the
returned label is the first label, in ascending-distance order, whose
multiplicity among the `k` selected labels is maximal — so the majority
label wins and a multiplicity tie goes to the tied group containing the
nearest row. -/
theorem C1_predict_euclidean_stable_majority
    (X : List (List ℚ)) (y : List ℤ) (c : KNNClassifier) (q : List ℚ) (k : ℤ)
    (hfit : KNNClassifier.fit ⟨none⟩ X y = Except.ok c)
    (hdim : X.all (fun r => r.length == q.length) = true)
    (hk0 : 0 < k) (hkn : k ≤ (X.length : ℤ)) :
    ∃ res : ℤ,
      c.predict q k = Except.ok res ∧
      (∀ i j : ℕ,
        (Real.sqrt ((qdist X q i : ℚ) : ℝ) ≤ Real.sqrt ((qdist X q j : ℚ) : ℝ) ↔
          qdist X q i ≤ qdist X q j)) ∧
      (selectK X q k.toNat).length = k.toNat ∧
      (selectK X q k.toNat).Nodup ∧
      (∀ i ∈ selectK X q k.toNat, i < X.length) ∧
      List.Sorted (nbrLE X q) (selectK X q k.toNat) ∧
      (∀ i ∈ selectK X q k.toNat, ∀ j : ℕ, j < X.length → j ∉ selectK X q k.toNat →
        Real.sqrt ((qdist X q i : ℚ) : ℝ) < Real.sqrt ((qdist X q j : ℚ) : ℝ) ∨
          (qdist X q i = qdist X q j ∧ i < j)) ∧
      res = majority (voteLabels X y q k.toNat) ∧
      ∃ pre post,
        voteLabels X y q k.toNat = pre ++ res :: post ∧
        (∀ l ∈ pre, (voteLabels X y q k.toNat).count l <
          (voteLabels X y q k.toNat).count res) ∧
        ∀ l ∈ voteLabels X y q k.toNat,
          (voteLabels X y q k.toNat).count l ≤ (voteLabels X y q k.toNat).count res := by
  rcases (fit_ok_iff X y c).mp hfit with ⟨hlen, rfl⟩
  have hkc : ¬(k ≤ 0 ∨ ((⟨X, y⟩ : KNNState).features.length : ℤ) < k) := by
    push_neg
    exact ⟨hk0, by simpa using hkn⟩
  have hpred := predict_fitted_ok ⟨X, y⟩ q k hkc (by simpa using hdim)
  have hktn : k.toNat ≤ X.length := by omega
  have hktn0 : 0 < k.toNat := by omega
  have hvne : voteLabels X y q k.toNat ≠ [] := by
    have := voteLabels_length X y q k.toNat hktn
    intro hemp
    rw [hemp] at this
    simp at this
    omega
  refine ⟨majority (voteLabels X y q k.toNat), hpred, ?_, selectK_length X q _ hktn,
    selectK_nodup X q _, selectK_mem_lt X q _, selectK_sorted X q _, ?_, rfl, ?_⟩
  · intro i j
    rw [Real.sqrt_le_sqrt_iff (by exact_mod_cast qdist_nonneg X q j)]
    exact_mod_cast Iff.rfl
  · intro i hi j hj hnj
    rcases selectK_boundary X q k.toNat i hi j hj hnj with hlt | ⟨heq, hle⟩
    · left
      rw [Real.sqrt_lt_sqrt_iff (by exact_mod_cast qdist_nonneg X q i)]
      exact_mod_cast hlt
    · right
      refine ⟨heq, lt_of_le_of_ne hle ?_⟩
      intro hij
      exact hnj (hij ▸ hi)
  · exact majority_spec _ hvne

theorem C1_witness :
    (KNNClassifier.fit ⟨none⟩ [[(0:ℚ)], [1], [5]] [0, 0, 1] =
      Except.ok ⟨some ⟨[[(0:ℚ)], [1], [5]], [0, 0, 1]⟩⟩) ∧
    [[(0:ℚ)], [1], [5]].all (fun r => r.length == ([(0:ℚ)] : List ℚ).length) = true ∧
    (0 : ℤ) < 2 ∧ (2 : ℤ) ≤ ([[(0:ℚ)], [1], [5]].length : ℤ) ∧
    ∃ res : ℤ,
      (KNNClassifier.mk (some ⟨[[(0:ℚ)], [1], [5]], [0, 0, 1]⟩)).predict [0] 2 =
        Except.ok res := by
  refine ⟨rfl, rfl, by decide, by decide, ?_⟩
  rcases C1_predict_euclidean_stable_majority [[(0:ℚ)], [1], [5]] [0, 0, 1]
      ⟨some ⟨[[(0:ℚ)], [1], [5]], [0, 0, 1]⟩⟩ [0] 2 rfl rfl (by decide) (by decide) with
    ⟨res, hres, -⟩
  exact ⟨res, hres⟩

/-- C2: `fit` fails with `DataShapeError` exactly when the feature-row count
and the label count differ; `predict` on an unfitted classifier always fails
with `NotFittedError`; `predict` after a successful fit fails with
`InvalidKError` whenever `k ≤ 0` or `k` exceeds the number of stored
training rows; every `predict` call either returns exactly one label or
fails entirely with one error; and after a successful fit, with a
dimension-matching query and a valid `k`, `predict` does return a label. -/
theorem C2_fit_predict_error_handling :
    (∀ (X : List (List ℚ)) (y : List ℤ),
      KNNClassifier.fit ⟨none⟩ X y = Except.error KNNError.dataShapeError ↔
        X.length ≠ y.length) ∧
    (∀ (q : List ℚ) (k : ℤ),
      (KNNClassifier.mk none).predict q k = Except.error KNNError.notFittedError) ∧
    (∀ (X : List (List ℚ)) (y : List ℤ) (c : KNNClassifier) (q : List ℚ) (k : ℤ),
      KNNClassifier.fit ⟨none⟩ X y = Except.ok c → (k ≤ 0 ∨ (X.length : ℤ) < k) →
      c.predict q k = Except.error KNNError.invalidKError) ∧
    (∀ (c : KNNClassifier) (q : List ℚ) (k : ℤ),
      (∃ l, c.predict q k = Except.ok l) ∨ ∃ e, c.predict q k = Except.error e) ∧
    (∀ (X : List (List ℚ)) (y : List ℤ) (c : KNNClassifier) (q : List ℚ) (k : ℤ),
      KNNClassifier.fit ⟨none⟩ X y = Except.ok c →
      X.all (fun r => r.length == q.length) = true →
      0 < k → k ≤ (X.length : ℤ) → ∃ l, c.predict q k = Except.ok l) := by
  refine ⟨?_, ?_, ?_, ?_, ?_⟩
  · intro X y
    by_cases h : X.length = y.length <;> simp [KNNClassifier.fit, h]
  · intro q k
    rfl
  · intro X y c q k hfit hk
    rcases (fit_ok_iff X y c).mp hfit with ⟨-, rfl⟩
    have hcond : k ≤ 0 ∨ ((⟨X, y⟩ : KNNState).features.length : ℤ) < k := by simpa using hk
    simp [KNNClassifier.predict, hcond]
  · intro c q k
    cases h : c.predict q k with
    | ok l => exact Or.inl ⟨l, rfl⟩
    | error e => exact Or.inr ⟨e, rfl⟩
  · intro X y c q k hfit hdim hk0 hkn
    rcases (fit_ok_iff X y c).mp hfit with ⟨-, rfl⟩
    exact ⟨_, predict_fitted_ok ⟨X, y⟩ q k
      (by push_neg; exact ⟨hk0, by simpa using hkn⟩) (by simpa using hdim)⟩

theorem C2_witness :
    (KNNClassifier.mk none).predict [(0:ℚ)] 1 = Except.error KNNError.notFittedError :=
  C2_fit_predict_error_handling.2.1 [(0:ℚ)] 1

/-- C3 counterexample: a fitted training set with two rows labelled `0` and
`1`, queried with `k` equal to the training-set size `2`, returns a
different label for different queries — the label-count tie is broken by
distance to the query, so the result of `predict` with `k = n` is not
independent of the query vector, contradicting the claim. -/
theorem C3_counterexample :
    KNNClassifier.fit ⟨none⟩ [[(0:ℚ)], [10]] [0, 1] =
      Except.ok (KNNClassifier.mk (some ⟨[[(0:ℚ)], [10]], [0, 1]⟩)) ∧
    (KNNClassifier.mk (some ⟨[[(0:ℚ)], [10]], [0, 1]⟩)).predict [0] 2 = Except.ok 0 ∧
    (KNNClassifier.mk (some ⟨[[(0:ℚ)], [10]], [0, 1]⟩)).predict [10] 2 = Except.ok 1 ∧
    (KNNClassifier.mk (some ⟨[[(0:ℚ)], [10]], [0, 1]⟩)).predict [0] 2 ≠
      (KNNClassifier.mk (some ⟨[[(0:ℚ)], [10]], [0, 1]⟩)).predict [10] 2 := by
  have h1 : (KNNClassifier.mk (some ⟨[[(0:ℚ)], [10]], [0, 1]⟩)).predict [0] 2 =
      Except.ok 0 := by
    norm_num [KNNClassifier.predict, majority, maxCount, voteLabels, selectK, neighborOrder,
      List.insertionSort, List.orderedInsert, nbrLE, qdist, rowAt, dist2, List.range_succ]
    all_goals decide
  have h2 : (KNNClassifier.mk (some ⟨[[(0:ℚ)], [10]], [0, 1]⟩)).predict [10] 2 =
      Except.ok 1 := by
    norm_num [KNNClassifier.predict, majority, maxCount, voteLabels, selectK, neighborOrder,
      List.insertionSort, List.orderedInsert, nbrLE, qdist, rowAt, dist2, List.range_succ]
    all_goals decide
  refine ⟨rfl, h1, h2, ?_⟩
  rw [h1, h2]
  simp

theorem range_map_getD (y : List ℤ) :
    (List.range y.length).map (fun i => y.getD i 0) = y := by
  apply List.ext_getElem
  · simp
  · intro i h1 h2
    simp [List.getD_eq_getElem y 0 h2, List.getElem?_eq_getElem h2]

/-- C3 amended: with `k` equal to the training-set size, `predict` returns a
label whose multiplicity in the entire training label list is maximal; and
whenever the training set has a unique majority label (every other label has
strictly smaller count), that label is returned — for every query vector, so
in that case the result is independent of the query.  (As stated the claim
is false: when two labels tie for the majority, the distance tie-break makes
the result depend on the query.) -/
theorem C3_amended_k_eq_n
    (X : List (List ℚ)) (y : List ℤ) (c : KNNClassifier) (q : List ℚ)
    (hfit : KNNClassifier.fit ⟨none⟩ X y = Except.ok c)
    (hdim : X.all (fun r => r.length == q.length) = true)
    (hn : 0 < X.length) :
    ∃ res : ℤ, c.predict q (X.length : ℤ) = Except.ok res ∧ res ∈ y ∧
      (∀ l ∈ y, y.count l ≤ y.count res) ∧
      ∀ L : ℤ, (∀ l ∈ y, l = L ∨ y.count l < y.count L) →
        c.predict q (X.length : ℤ) = Except.ok L := by
  rcases (fit_ok_iff X y c).mp hfit with ⟨hlen, rfl⟩
  have hkc : ¬((X.length : ℤ) ≤ 0 ∨ ((⟨X, y⟩ : KNNState).features.length : ℤ) < X.length) := by
    push_neg
    exact ⟨by exact_mod_cast hn, le_refl _⟩
  have hpred := predict_fitted_ok ⟨X, y⟩ q (X.length : ℤ) hkc (by simpa using hdim)
  have htn : ((X.length : ℤ)).toNat = X.length := by omega
  rw [htn] at hpred
  have hsel : selectK X q X.length = neighborOrder X q := by
    unfold selectK
    rw [← neighborOrder_length X q]
    exact List.take_length _
  have hperm : (voteLabels X y q X.length).Perm y := by
    unfold voteLabels
    rw [hsel]
    have h1 : ((neighborOrder X q).map (fun i => y.getD i 0)).Perm
        ((List.range X.length).map (fun i => y.getD i 0)) :=
      (neighborOrder_perm X q).map _
    rw [hlen] at h1
    rw [range_map_getD y] at h1
    exact h1
  have hvne : voteLabels X y q X.length ≠ [] := by
    intro hemp
    have := hperm.length_eq
    rw [hemp] at this
    simp at this
    omega
  have hmem : majority (voteLabels X y q X.length) ∈ y :=
    hperm.mem_iff.mp (majority_mem _ hvne)
  rcases majority_spec _ hvne with ⟨-, -, -, -, hmax⟩
  have hymax : ∀ l ∈ y, y.count l ≤ y.count (majority (voteLabels X y q X.length)) := by
    intro l hl
    have h1 := hmax l (hperm.mem_iff.mpr hl)
    rwa [hperm.count_eq l, hperm.count_eq (majority (voteLabels X y q X.length))] at h1
  refine ⟨majority (voteLabels X y q X.length), hpred, hmem, hymax, ?_⟩
  intro L hL
  rcases hL _ hmem with heq | hlt
  · rw [← heq]
    exact hpred
  · exfalso
    by_cases hLy : L ∈ y
    · exact absurd hlt (not_lt.mpr (hymax L hLy))
    · rw [List.count_eq_zero.mpr hLy] at hlt
      omega

theorem C3_witness :
    (KNNClassifier.fit ⟨none⟩ [[(0:ℚ)], [1], [5]] [0, 0, 1] =
      Except.ok ⟨some ⟨[[(0:ℚ)], [1], [5]], [0, 0, 1]⟩⟩) ∧
    [[(0:ℚ)], [1], [5]].all (fun r => r.length == ([(0:ℚ)] : List ℚ).length) = true ∧
    0 < [[(0:ℚ)], [1], [5]].length ∧
    ∃ res : ℤ,
      (KNNClassifier.mk (some ⟨[[(0:ℚ)], [1], [5]], [0, 0, 1]⟩)).predict [0]
        ([[(0:ℚ)], [1], [5]].length : ℤ) = Except.ok res ∧ res ∈ ([0, 0, 1] : List ℤ) := by
  refine ⟨rfl, rfl, by decide, ?_⟩
  rcases C3_amended_k_eq_n [[(0:ℚ)], [1], [5]] [0, 0, 1]
      ⟨some ⟨[[(0:ℚ)], [1], [5]], [0, 0, 1]⟩⟩ [0] rfl rfl (by decide) with
    ⟨res, hres, hmem, -⟩
  exact ⟨res, hres, hmem⟩

theorem sum_map_add_const {α : Type} (l : List α) (c : ℕ) (g : α → ℕ) :
    (l.map (fun i => c + g i)).sum = l.length * c + (l.map g).sum := by
  induction l with
  | nil => simp
  | cons a t ih =>
    simp only [List.map_cons, List.sum_cons, List.length_cons, ih]
    ring

theorem sum_range_indicator (k m : ℕ) :
    ((List.range k).map (fun i => if i < m then 1 else 0)).sum = min m k := by
  induction k with
  | zero => simp
  | succ k ih =>
    rw [List.range_succ, List.map_append, List.sum_append, ih]
    by_cases h : k < m
    · simp only [h, if_true, List.map_cons, List.map_nil, List.sum_cons, List.sum_nil]
      omega
    · simp only [h, if_false, List.map_cons, List.map_nil, List.sum_cons, List.sum_nil]
      omega

theorem foldSizes_length (n k : ℕ) : (foldSizes n k).length = k := by
  simp [foldSizes]

theorem foldSizes_sum (n k : ℕ) (hk : 0 < k) : (foldSizes n k).sum = n := by
  unfold foldSizes
  have h1 : ∀ i : ℕ,
      (if i < n % k then n / k + 1 else n / k) = n / k + (if i < n % k then 1 else 0) := by
    intro i
    by_cases h : i < n % k <;> simp [h]
  simp only [h1]
  rw [sum_map_add_const, sum_range_indicator, List.length_range]
  have h2 : min (n % k) k = n % k := Nat.min_eq_left (le_of_lt (Nat.mod_lt n hk))
  have h3 := Nat.div_add_mod n k
  omega

theorem chunksBy_length (ss : List ℕ) : ∀ l : List ℕ, (chunksBy ss l).length = ss.length := by
  induction ss with
  | nil => intro l; simp [chunksBy]
  | cons s t ih => intro l; simp [chunksBy, ih]

theorem chunksBy_flatten (ss : List ℕ) :
    ∀ l : List ℕ, ss.sum = l.length → (chunksBy ss l).flatten = l := by
  induction ss with
  | nil =>
    intro l h
    simp only [List.sum_nil] at h
    have : l = [] := List.length_eq_zero.mp h.symm
    simp [chunksBy, this]
  | cons s t ih =>
    intro l h
    simp only [List.sum_cons] at h
    have hs : s ≤ l.length := by omega
    have hdrop : t.sum = (l.drop s).length := by
      rw [List.length_drop]
      omega
    simp only [chunksBy, List.flatten_cons, ih (l.drop s) hdrop]
    exact List.take_append_drop s l

theorem kfoldSplits_length (perm : List ℕ) (k : ℕ) : (kfoldSplits perm k).length = k := by
  simp [kfoldSplits, chunksBy_length, foldSizes_length]

theorem kfoldSplits_tests_flatten (perm : List ℕ) (k : ℕ) (hk : 0 < k) :
    ((kfoldSplits perm k).map Prod.snd).flatten = perm := by
  unfold kfoldSplits
  rw [List.map_map]
  have : (Prod.snd ∘ fun t : List ℕ =>
      ((List.range perm.length).filter (fun i => ! t.contains i), t)) = id := by
    funext t
    rfl
  rw [this, List.map_id]
  exact chunksBy_flatten _ _ (foldSizes_sum perm.length k hk)

theorem fit_transform_length (X : List (List ℚ)) : (fit_transform X).length = X.length := by
  simp [fit_transform, transformWith]

theorem foldStep_eq (X : List (List ℚ)) (y : List ℤ) (nn : ℤ) (f : List ℕ × List ℕ) :
    foldStep X y nn f =
      accuracy_score (f.2.map (fun i => y.getD i 0))
        ((fit_transform (f.2.map (fun i => X.getD i []))).map
          (fun r => (KNNClassifier.mk (some ⟨fit_transform (f.1.map (fun i => X.getD i [])),
            f.1.map (fun i => y.getD i 0)⟩)).predict r nn)) := by
  have hfit : KNNClassifier.fit ⟨none⟩ (fit_transform (f.1.map (fun i => X.getD i [])))
      (f.1.map (fun i => y.getD i 0)) =
      Except.ok (KNNClassifier.mk (some ⟨fit_transform (f.1.map (fun i => X.getD i [])),
        f.1.map (fun i => y.getD i 0)⟩)) := by
    rw [fit_ok_iff]
    exact ⟨by simp [fit_transform_length], rfl⟩
  simp only [foldStep, hfit]

/-- C4: `k_fold_cv_knn` builds exactly ten seeded shuffled folds whose test
chunks tile the shuffled index sequence (hence partition the dataset
indices), fits one fresh `KNNClassifier` per fold on that fold's training
partition, calls `predict` exactly once per test row (the prediction list
has one entry per test index, aligned with the fold's test labels), and
returns the arithmetic mean — sum divided by ten — of the ten per-fold
accuracy scores. -/
theorem C4_k_fold_cv_ten_fold_mean
    (rng : ℤ → ℕ → List ℕ) (X : List (List ℚ)) (y : List ℤ) (nn : ℤ)
    (hperm : (rng 42 X.length).Perm (List.range X.length)) :
    (kfoldSplits (rng 42 X.length) 10).length = 10 ∧
    (((kfoldSplits (rng 42 X.length) 10).map Prod.snd).flatten).Perm
      (List.range X.length) ∧
    (∀ f ∈ kfoldSplits (rng 42 X.length) 10,
      ∃ c : KNNClassifier,
        KNNClassifier.fit ⟨none⟩ (fit_transform (f.1.map (fun i => X.getD i [])))
          (f.1.map (fun i => y.getD i 0)) = Except.ok c ∧
        foldStep X y nn f =
          accuracy_score (f.2.map (fun i => y.getD i 0))
            ((fit_transform (f.2.map (fun i => X.getD i []))).map
              (fun r => c.predict r nn)) ∧
        ((fit_transform (f.2.map (fun i => X.getD i []))).map
          (fun r => c.predict r nn)).length = f.2.length ∧
        (f.2.map (fun i => y.getD i 0)).length = f.2.length) ∧
    k_fold_cv_knn rng X y nn =
      ((kfoldSplits (rng 42 X.length) 10).map (foldStep X y nn)).sum / 10 := by
  refine ⟨kfoldSplits_length _ 10, ?_, ?_, ?_⟩
  · rw [kfoldSplits_tests_flatten _ 10 (by norm_num)]
    exact hperm
  · intro f _
    refine ⟨KNNClassifier.mk (some ⟨fit_transform (f.1.map (fun i => X.getD i [])),
      f.1.map (fun i => y.getD i 0)⟩), ?_, foldStep_eq X y nn f, ?_, ?_⟩
    · rw [fit_ok_iff]
      exact ⟨by simp [fit_transform_length], rfl⟩
    · simp [fit_transform_length]
    · simp
  · show (List.map (foldStep X y nn) (kfoldSplits (rng 42 X.length) 10)).sum /
        ((List.map (foldStep X y nn) (kfoldSplits (rng 42 X.length) 10)).length : ℚ) = _
    rw [List.length_map, kfoldSplits_length]
    norm_num

theorem C4_witness :
    ((fun (_ : ℤ) (n : ℕ) => List.range n) 42 (List.replicate 12 [(0:ℚ)]).length).Perm
      (List.range (List.replicate 12 [(0:ℚ)]).length) ∧
    (kfoldSplits ((fun (_ : ℤ) (n : ℕ) => List.range n) 42
      (List.replicate 12 [(0:ℚ)]).length) 10).length = 10 := by
  refine ⟨List.Perm.refl _, ?_⟩
  exact (C4_k_fold_cv_ten_fold_mean (fun _ n => List.range n) (List.replicate 12 [(0:ℚ)])
    (List.replicate 12 0) 5 (List.Perm.refl _)).1

theorem sum_map_div {α : Type} (l : List α) (g : α → ℚ) (c : ℚ) :
    (l.map (fun x => g x / c)).sum = (l.map g).sum / c := by
  induction l with
  | nil => simp
  | cons a t ih => simp [ih, add_div]

theorem sum_map_sub {α : Type} (l : List α) (g h : α → ℚ) :
    (l.map (fun x => g x - h x)).sum = (l.map g).sum - (l.map h).sum := by
  induction l with
  | nil => simp
  | cons a t ih =>
    simp only [List.map_cons, List.sum_cons, ih]
    ring

theorem sum_map_const_q {α : Type} (l : List α) (c : ℚ) :
    (l.map (fun _ => c)).sum = (l.length : ℚ) * c := by
  induction l with
  | nil => simp
  | cons a t ih =>
    simp only [List.map_cons, List.sum_cons, List.length_cons, ih]
    push_cast
    ring

theorem transformWith_col (S B : List (List ℚ)) (j : ℕ) (hj : j < nCols S) :
    colVals (transformWith S B) j =
      B.map (fun r => (r.getD j 0 - colMean S j) / colScale S j) := by
  unfold colVals transformWith
  rw [List.map_map]
  apply List.map_congr_left
  intro r _
  show ((List.range (nCols S)).map
      (fun j' => (r.getD j' 0 - colMean S j') / colScale S j')).getD j 0 = _
  rw [List.getD_eq_getElem _ _ (by simpa using hj)]
  simp

theorem length_eq_sum_eq (X : List (List ℚ)) (j : ℕ) (hn : (X.length : ℚ) ≠ 0) :
    (X.map (fun r => r.getD j 0)).sum = (X.length : ℚ) * colMean X j := by
  unfold colMean colVals
  field_simp

theorem fit_transform_colMean_zero (X : List (List ℚ)) (j : ℕ) (hX : X ≠ [])
    (hj : j < nCols X) : colMean (fit_transform X) j = 0 := by
  have hn : (X.length : ℚ) ≠ 0 := by
    simpa [List.length_eq_zero] using hX
  have hcol : colVals (fit_transform X) j =
      X.map (fun r => (r.getD j 0 - colMean X j) / colScale X j) :=
    transformWith_col X X j hj
  unfold colMean
  rw [hcol]
  have h1 : (X.map (fun r => (r.getD j 0 - colMean X j) / colScale X j)).sum
      = ((X.map (fun r => r.getD j 0 - colMean X j)).sum) / colScale X j :=
    sum_map_div X (fun r => r.getD j 0 - colMean X j) (colScale X j)
  have h2 : (X.map (fun r => r.getD j 0 - colMean X j)).sum
      = (X.map (fun r => r.getD j 0)).sum - (X.map (fun _ => colMean X j)).sum :=
    sum_map_sub X (fun r => r.getD j 0) (fun _ => colMean X j)
  rw [h1, h2, sum_map_const_q, length_eq_sum_eq X j hn]
  simp

theorem fit_transform_colVar_one (X : List (List ℚ)) (j : ℕ) (hX : X ≠ [])
    (hj : j < nCols X) (hv : colVar X j ≠ 0)
    (hsq : colScale X j * colScale X j = colVar X j) :
    colVar (fit_transform X) j = 1 := by
  have hn : (X.length : ℚ) ≠ 0 := by
    simpa [List.length_eq_zero] using hX
  have hσ : colScale X j ≠ 0 := by
    intro h0
    rw [h0, mul_zero] at hsq
    exact hv hsq.symm
  have hμ := fit_transform_colMean_zero X j hX hj
  have hcol : colVals (fit_transform X) j =
      X.map (fun r => (r.getD j 0 - colMean X j) / colScale X j) :=
    transformWith_col X X j hj
  unfold colVar
  rw [hμ, hcol, fit_transform_length, List.map_map]
  have hfun : ((fun x => (x - 0) ^ 2) ∘ fun r : List ℚ =>
      (r.getD j 0 - colMean X j) / colScale X j) =
      fun r : List ℚ => (r.getD j 0 - colMean X j) ^ 2 / colScale X j ^ 2 := by
    funext r
    simp [div_pow]
  rw [hfun]
  have h1 : (X.map (fun r => (r.getD j 0 - colMean X j) ^ 2 / colScale X j ^ 2)).sum
      = (X.map (fun r => (r.getD j 0 - colMean X j) ^ 2)).sum / colScale X j ^ 2 :=
    sum_map_div X (fun r => (r.getD j 0 - colMean X j) ^ 2) (colScale X j ^ 2)
  rw [h1]
  have h2 : (X.map (fun r => (r.getD j 0 - colMean X j) ^ 2)).sum
      = (X.length : ℚ) * colVar X j := by
    unfold colVar colVals
    rw [List.map_map]
    have : ((fun x => (x - colMean X j) ^ 2) ∘ fun r : List ℚ => r.getD j 0)
        = fun r : List ℚ => (r.getD j 0 - colMean X j) ^ 2 := by
      funext r
      rfl
    rw [this]
    field_simp
  rw [h2]
  have h3 : colScale X j ^ 2 = colVar X j := by
    rw [pow_two]
    exact hsq
  rw [h3]
  field_simp

theorem fit_stores_verbatim (A : List (List ℚ)) (b : List ℤ) (c : KNNClassifier)
    (h : KNNClassifier.fit ⟨none⟩ A b = Except.ok c) : c.fitted = some ⟨A, b⟩ := by
  rcases (fit_ok_iff A b c).mp h with ⟨-, rfl⟩
  rfl

theorem evalKNN_y_pred_eq (rng : ℤ → ℕ → List ℕ) (X : List (List ℚ)) (y : List ℤ) :
    (evaluate_analyze_knn rng X y).y_pred =
      (fit_transform ((train_test_split_indices rng X.length).2.map
        (fun i => X.getD i []))).map
        (fun r => (KNNClassifier.mk
          (some ⟨fit_transform ((train_test_split_indices rng X.length).1.map
              (fun i => X.getD i [])),
            (train_test_split_indices rng X.length).1.map (fun i => y.getD i 0)⟩)).predict
          r 5) := by
  have hfit : KNNClassifier.fit ⟨none⟩
      (fit_transform ((train_test_split_indices rng X.length).1.map (fun i => X.getD i [])))
      ((train_test_split_indices rng X.length).1.map (fun i => y.getD i 0)) =
      Except.ok (KNNClassifier.mk
        (some ⟨fit_transform ((train_test_split_indices rng X.length).1.map
            (fun i => X.getD i [])),
          (train_test_split_indices rng X.length).1.map (fun i => y.getD i 0)⟩)) := by
    rw [fit_ok_iff]
    exact ⟨by simp [fit_transform_length], rfl⟩
  simp only [evaluate_analyze_knn, hfit]

/-- C5: on both call paths that reach `fit`/`predict` — the per-fold body of
`k_fold_cv_knn` and the holdout path of `evaluate_analyze_knn` — the
classifier is fitted on `fit_transform` of the training partition and every
`predict` query is a row of `fit_transform` of the test partition, so the
features are z-score standardized before being passed in; the classifier
itself stores its input verbatim (no internal scaling); and the
standardization really is z-score: every standardized column has mean zero,
and variance one whenever the original column variance is nonzero and its
square root is exactly representable. -/
theorem C5_standardize_before_fit_and_predict
    (X : List (List ℚ)) (y : List ℤ) (nn : ℤ) (f : List ℕ × List ℕ)
    (rng : ℤ → ℕ → List ℕ) (W : List (List ℚ)) (j : ℕ)
    (hW : W ≠ []) (hj : j < nCols W) (hv : colVar W j ≠ 0)
    (hsq : colScale W j * colScale W j = colVar W j) :
    (∀ (A : List (List ℚ)) (b : List ℤ) (c : KNNClassifier),
      KNNClassifier.fit ⟨none⟩ A b = Except.ok c → c.fitted = some ⟨A, b⟩) ∧
    foldStep X y nn f =
      accuracy_score (f.2.map (fun i => y.getD i 0))
        ((fit_transform (f.2.map (fun i => X.getD i []))).map
          (fun r => (KNNClassifier.mk (some ⟨fit_transform (f.1.map (fun i => X.getD i [])),
            f.1.map (fun i => y.getD i 0)⟩)).predict r nn)) ∧
    (evaluate_analyze_knn rng X y).y_pred =
      (fit_transform ((train_test_split_indices rng X.length).2.map
        (fun i => X.getD i []))).map
        (fun r => (KNNClassifier.mk
          (some ⟨fit_transform ((train_test_split_indices rng X.length).1.map
              (fun i => X.getD i [])),
            (train_test_split_indices rng X.length).1.map (fun i => y.getD i 0)⟩)).predict
          r 5) ∧
    colMean (fit_transform W) j = 0 ∧
    colVar (fit_transform W) j = 1 := by
  exact ⟨fit_stores_verbatim, foldStep_eq X y nn f, evalKNN_y_pred_eq rng X y,
    fit_transform_colMean_zero W j hW hj, fit_transform_colVar_one W j hW hj hv hsq⟩

theorem C5_witness :
    ([[(-1:ℚ)], [1]] ≠ ([] : List (List ℚ))) ∧
    0 < nCols [[(-1:ℚ)], [1]] ∧
    colVar [[(-1:ℚ)], [1]] 0 ≠ 0 ∧
    colScale [[(-1:ℚ)], [1]] 0 * colScale [[(-1:ℚ)], [1]] 0 = colVar [[(-1:ℚ)], [1]] 0 ∧
    colMean (fit_transform [[(-1:ℚ)], [1]]) 0 = 0 ∧
    colVar (fit_transform [[(-1:ℚ)], [1]]) 0 = 1 := by
  have hW : [[(-1:ℚ)], [1]] ≠ ([] : List (List ℚ)) := by simp
  have hj : 0 < nCols [[(-1:ℚ)], [1]] := by norm_num [nCols]
  have hv : colVar [[(-1:ℚ)], [1]] 0 ≠ 0 := by
    norm_num [colVar, colVals, colMean]
  have hsq : colScale [[(-1:ℚ)], [1]] 0 * colScale [[(-1:ℚ)], [1]] 0 =
      colVar [[(-1:ℚ)], [1]] 0 := by
    norm_num [colScale, colVar, colVals, colMean, Rat.sqrt]
  have h := C5_standardize_before_fit_and_predict [] [] 0 ([], [])
    (fun _ n => List.range n) [[(-1:ℚ)], [1]] 0 hW hj hv hsq
  exact ⟨hW, hj, hv, hsq, h.2.2.2.1, h.2.2.2.2⟩

theorem affine_scaling_distinct (m1 s1 m2 s2 : ℚ) (h1 : s1 ≠ 0) (h2 : s2 ≠ 0)
    (hne : (m1, s1) ≠ (m2, s2)) : ∃ x : ℚ, (x - m1) / s1 ≠ (x - m2) / s2 := by
  by_contra hall
  push_neg at hall
  have ha := hall m1
  rw [sub_self, zero_div] at ha
  have hm : m1 = m2 := by
    rcases div_eq_zero_iff.mp ha.symm with h | h
    · linarith
    · exact absurd h h2
  have hb := hall (m1 + s1)
  rw [add_sub_cancel_left, div_self h1, hm, add_sub_cancel_left] at hb
  have hs : s1 = s2 := by
    field_simp at hb
    linarith
  exact hne (by rw [hm, hs])

/-- C9: both `k_fold_cv_knn` (per fold) and `evaluate_analyze_knn`
standardize the test partition with a scaler refitted on the test partition
itself — `fit_transform` is by definition a transform with the partition's
own statistics, and the queries handed to `predict` are rows of the test
partition transformed with the test partition's statistics, not with the
training partition's; on a concrete train/test pair with different
statistics the two scalings produce different tables, and in general two
different (mean, scale) pairs scale some feature value differently. -/
theorem C9_scaler_refit_on_test
    (X : List (List ℚ)) (y : List ℤ) (nn : ℤ) (f : List ℕ × List ℕ)
    (rng : ℤ → ℕ → List ℕ)
    (m1 s1 m2 s2 : ℚ) (h1 : s1 ≠ 0) (h2 : s2 ≠ 0) (hne : (m1, s1) ≠ (m2, s2)) :
    (∀ B : List (List ℚ), fit_transform B = transformWith B B) ∧
    foldStep X y nn f =
      accuracy_score (f.2.map (fun i => y.getD i 0))
        ((transformWith (f.2.map (fun i => X.getD i []))
            (f.2.map (fun i => X.getD i []))).map
          (fun r => (KNNClassifier.mk
            (some ⟨transformWith (f.1.map (fun i => X.getD i []))
                (f.1.map (fun i => X.getD i [])),
              f.1.map (fun i => y.getD i 0)⟩)).predict r nn)) ∧
    (evaluate_analyze_knn rng X y).y_pred =
      (transformWith ((train_test_split_indices rng X.length).2.map (fun i => X.getD i []))
          ((train_test_split_indices rng X.length).2.map (fun i => X.getD i []))).map
        (fun r => (KNNClassifier.mk
          (some ⟨transformWith ((train_test_split_indices rng X.length).1.map
                (fun i => X.getD i []))
              ((train_test_split_indices rng X.length).1.map (fun i => X.getD i [])),
            (train_test_split_indices rng X.length).1.map (fun i => y.getD i 0)⟩)).predict
          r 5) ∧
    transformWith [[(0:ℚ)], [2]] [[(0:ℚ)], [4]] ≠
      transformWith [[(0:ℚ)], [4]] [[(0:ℚ)], [4]] ∧
    ∃ x : ℚ, (x - m1) / s1 ≠ (x - m2) / s2 := by
  refine ⟨fun B => rfl, foldStep_eq X y nn f, evalKNN_y_pred_eq rng X y, ?_,
    affine_scaling_distinct m1 s1 m2 s2 h1 h2 hne⟩
  norm_num [transformWith, nCols, colMean, colVals, colVar, colScale, Rat.sqrt,
    List.range_succ]

theorem C9_witness :
    ((1:ℚ) ≠ 0) ∧ (((0:ℚ), (1:ℚ)) ≠ ((1:ℚ), (1:ℚ))) ∧
    ∃ x : ℚ, (x - 0) / 1 ≠ (x - 1) / 1 := by
  refine ⟨one_ne_zero, by simp, ?_⟩
  exact (C9_scaler_refit_on_test [] [] 0 ([], []) (fun _ n => List.range n)
    0 1 1 1 one_ne_zero one_ne_zero (by simp)).2.2.2.2

theorem majority_mem_or_zero (L : List ℤ) : majority L = 0 ∨ majority L ∈ L := by
  unfold majority
  cases hf : L.find? (fun l => L.count l == maxCount L) with
  | none => simp
  | some res =>
    right
    simpa using List.mem_of_find?_eq_some hf

theorem voteLabels_mem (X : List (List ℚ)) (y : List ℤ) (q : List ℚ) (k : ℕ) :
    ∀ l ∈ voteLabels X y q k, l = 0 ∨ l ∈ y := by
  intro l hl
  rcases List.mem_map.mp hl with ⟨i, -, rfl⟩
  by_cases hi : i < y.length
  · right
    rw [List.getD_eq_getElem y 0 hi]
    exact List.getElem_mem hi
  · left
    exact List.getD_eq_default y 0 (by omega)

theorem predict_ok_label (st : KNNState) (q : List ℚ) (k : ℤ) (l : ℤ)
    (h : (KNNClassifier.mk (some st)).predict q k = Except.ok l) :
    l = 0 ∨ l ∈ st.labels := by
  unfold KNNClassifier.predict at h
  by_cases hk : k ≤ 0 ∨ (st.features.length : ℤ) < k
  · simp [hk] at h
  · by_cases hdim : st.features.all (fun r => r.length == q.length) = true
    · simp only [hk, if_false, hdim, if_true] at h
      have hmaj : majority (voteLabels st.features st.labels q k.toNat) = l := by
        simpa using h
      rcases majority_mem_or_zero (voteLabels st.features st.labels q k.toNat) with h0 | hm
      · exact Or.inl (by rw [← hmaj, h0])
      · rw [hmaj] at hm
        exact voteLabels_mem st.features st.labels q k.toNat l hm
    · simp [hk, hdim] at h

/-- C6: `evaluate_analyze_knn` hands the pair `(y_test, y_pred)` — the hard
label predictions, unchanged — to both the ROC-curve computation and the AUC
computation; and when the dataset's `dec` labels are all `0` or `1`, every
returned prediction is itself a hard `0`/`1` label (predictions are training
labels, with `0` as the out-of-range default), so no probability or
confidence score exists anywhere in the pipeline. -/
theorem C6_hard_labels_into_roc_auc (rng : ℤ → ℕ → List ℕ) (X : List (List ℚ))
    (y : List ℤ) (h01 : y.all (fun l => l == 0 || l == 1) = true) :
    (evaluate_analyze_knn rng X y).roc_args =
      ((evaluate_analyze_knn rng X y).y_test, (evaluate_analyze_knn rng X y).y_pred) ∧
    (evaluate_analyze_knn rng X y).auc_args =
      ((evaluate_analyze_knn rng X y).y_test, (evaluate_analyze_knn rng X y).y_pred) ∧
    ∀ p ∈ (evaluate_analyze_knn rng X y).y_pred, ∀ l : ℤ, p = Except.ok l →
      l = 0 ∨ l = 1 := by
  have h01' : ∀ l ∈ y, l = 0 ∨ l = 1 := by
    intro l hl
    have := List.all_eq_true.mp h01 l hl
    simpa using this
  refine ⟨rfl, rfl, ?_⟩
  intro p hp l hpl
  rw [evalKNN_y_pred_eq rng X y] at hp
  rcases List.mem_map.mp hp with ⟨r, -, rfl⟩
  rcases predict_ok_label _ r 5 l hpl with h0 | hmem
  · exact Or.inl h0
  · rcases List.mem_map.mp hmem with ⟨i, -, rfl⟩
    by_cases hi : i < y.length
    · exact h01' _ (by rw [List.getD_eq_getElem y 0 hi]; exact List.getElem_mem hi)
    · exact Or.inl (List.getD_eq_default y 0 (by omega))

theorem C6_witness :
    (([0, 1] : List ℤ).all (fun l => l == 0 || l == 1) = true) ∧
    (evaluate_analyze_knn (fun _ n => List.range n) [[(0:ℚ)], [1]] [0, 1]).roc_args =
      ((evaluate_analyze_knn (fun _ n => List.range n) [[(0:ℚ)], [1]] [0, 1]).y_test,
        (evaluate_analyze_knn (fun _ n => List.range n) [[(0:ℚ)], [1]] [0, 1]).y_pred) := by
  refine ⟨rfl, ?_⟩
  exact (C6_hard_labels_into_roc_auc (fun _ n => List.range n) [[(0:ℚ)], [1]] [0, 1] rfl).1

/-- C7: evaluation of the module-level script's call sequence at a dataset
with one row in each age band (ages 22, 27 and 35).  The sixth clustering
analysis (line 264) is labelled `age over 30` but receives the 25-to-29
slice; the over-30 slice differs from it, never appears among the clustering
calls, and does appear among the KNN calls — so the clustering analysis is
run twice on the 25-to-29 slice and never on the over-30 slice,
contradicting the script's own label. -/
theorem C7_clustering_misses_over_30_slice :
    data_25_to_29 [({ gender := 1, age := 22, rest := [], dec := 0 } : Row),
        { gender := 0, age := 27, rest := [], dec := 1 },
        { gender := 1, age := 35, rest := [], dec := 1 }] ≠
      data_over_30 [({ gender := 1, age := 22, rest := [], dec := 0 } : Row),
        { gender := 0, age := 27, rest := [], dec := 1 },
        { gender := 1, age := 35, rest := [], dec := 1 }] ∧
    (clustering_calls [({ gender := 1, age := 22, rest := [], dec := 0 } : Row),
        { gender := 0, age := 27, rest := [], dec := 1 },
        { gender := 1, age := 35, rest := [], dec := 1 }]).getD 5 ([], "") =
      (data_25_to_29 [({ gender := 1, age := 22, rest := [], dec := 0 } : Row),
        { gender := 0, age := 27, rest := [], dec := 1 },
        { gender := 1, age := 35, rest := [], dec := 1 }], "age over 30") ∧
    ((clustering_calls [({ gender := 1, age := 22, rest := [], dec := 0 } : Row),
        { gender := 0, age := 27, rest := [], dec := 1 },
        { gender := 1, age := 35, rest := [], dec := 1 }]).map Prod.fst).contains
      (data_over_30 [({ gender := 1, age := 22, rest := [], dec := 0 } : Row),
        { gender := 0, age := 27, rest := [], dec := 1 },
        { gender := 1, age := 35, rest := [], dec := 1 }]) = false ∧
    ((knn_calls [({ gender := 1, age := 22, rest := [], dec := 0 } : Row),
        { gender := 0, age := 27, rest := [], dec := 1 },
        { gender := 1, age := 35, rest := [], dec := 1 }]).map Prod.fst).contains
      (data_over_30 [({ gender := 1, age := 22, rest := [], dec := 0 } : Row),
        { gender := 0, age := 27, rest := [], dec := 1 },
        { gender := 1, age := 35, rest := [], dec := 1 }]) = true := by
  decide


theorem idxmaxFold_spec (f : ℕ → ℚ) :
    ∀ (l : List ℕ) (b : ℕ), (∀ x ∈ l, b ≤ x) → List.Pairwise (· ≤ ·) l →
      (idxmaxFold f b l = b ∨ idxmaxFold f b l ∈ l) ∧
      f b ≤ f (idxmaxFold f b l) ∧
      (∀ m ∈ l, f m ≤ f (idxmaxFold f b l)) ∧
      (f b = f (idxmaxFold f b l) → idxmaxFold f b l = b) ∧
      (∀ m ∈ l, f m = f (idxmaxFold f b l) → idxmaxFold f b l ≤ m) := by
  intro l
  induction l with
  | nil =>
    intro b _ _
    refine ⟨Or.inl rfl, le_refl _, ?_, fun _ => rfl, ?_⟩
    · intro m hm
      cases hm
    · intro m hm
      cases hm
  | cons k t ih =>
    intro b hb hsort
    have hbk : b ≤ k := hb k (List.mem_cons_self _ _)
    rcases List.pairwise_cons.mp hsort with ⟨hkt, hpt⟩
    have hbt : ∀ x ∈ t, b ≤ x := fun x hx => hb x (List.mem_cons_of_mem _ hx)
    by_cases h : f b < f k
    · have hstep : idxmaxFold f b (k :: t) = idxmaxFold f k t := by
        simp [idxmaxFold, h]
      obtain ⟨ih1, ih2, ih3, ih4, ih5⟩ := ih k hkt hpt
      rw [hstep]
      refine ⟨?_, le_trans (le_of_lt h) ih2, ?_, ?_, ?_⟩
      · rcases ih1 with h' | h'
        · right; rw [h']; exact List.mem_cons_self _ _
        · right; exact List.mem_cons_of_mem _ h'
      · intro m hm
        rcases List.mem_cons.mp hm with rfl | hmt
        · exact ih2
        · exact ih3 m hmt
      · intro heq
        exfalso
        have : f b < f (idxmaxFold f k t) := lt_of_lt_of_le h ih2
        rw [← heq] at this
        exact lt_irrefl _ this
      · intro m hm heq
        rcases List.mem_cons.mp hm with rfl | hmt
        · rw [ih4 heq]
        · exact ih5 m hmt heq
    · have hstep : idxmaxFold f b (k :: t) = idxmaxFold f b t := by
        simp [idxmaxFold, h]
      obtain ⟨ih1, ih2, ih3, ih4, ih5⟩ := ih b hbt hpt
      rw [hstep]
      refine ⟨?_, ih2, ?_, ih4, ?_⟩
      · rcases ih1 with h' | h'
        · exact Or.inl h'
        · right; exact List.mem_cons_of_mem _ h'
      · intro m hm
        rcases List.mem_cons.mp hm with rfl | hmt
        · exact le_trans (le_of_not_lt h) ih2
        · exact ih3 m hmt
      · intro m hm heq
        rcases List.mem_cons.mp hm with rfl | hmt
        · have hfb : f b = f (idxmaxFold f b t) :=
            le_antisymm ih2 (by rw [← heq]; exact le_of_not_lt h)
          rw [ih4 hfb]
          exact hbk
        · exact ih5 m hmt heq

/-- C8: `evaluate_analyze_clustering` trains and visualizes the seeded
KMeans model with exactly the cluster count chosen by
`tune_clustering_hyperparameter`, and that count is the candidate in
`range(2, 30)` whose silhouette score (the library collaborator `sil`, a
deterministic function of the candidate on the scaled data) is maximal —
the smallest such candidate when several tie, as `pandas.Series.idxmax`
keeps the first occurrence. -/
theorem C8_tune_silhouette_first_argmax (sil : ℕ → ℚ) :
    (evaluate_analyze_clustering sil).tuned_k = tune_clustering_hyperparameter sil ∧
    (evaluate_analyze_clustering sil).model =
      trained_clustering_model (tune_clustering_hyperparameter sil) ∧
    (evaluate_analyze_clustering sil).model.n_clusters =
      tune_clustering_hyperparameter sil ∧
    (evaluate_analyze_clustering sil).visualized_k = tune_clustering_hyperparameter sil ∧
    tune_clustering_hyperparameter sil ∈ List.range' 2 28 ∧
    (∀ m ∈ List.range' 2 28, sil m ≤ sil (tune_clustering_hyperparameter sil)) ∧
    (∀ m ∈ List.range' 2 28, sil m = sil (tune_clustering_hyperparameter sil) →
      tune_clustering_hyperparameter sil ≤ m) := by
  have htune : tune_clustering_hyperparameter sil = idxmaxFold sil 2 (List.range' 2 28) :=
    rfl
  have hbd : ∀ x ∈ List.range' 2 28, 2 ≤ x := by decide
  have hsort : List.Pairwise (· ≤ ·) (List.range' 2 28) := by decide
  obtain ⟨h1, h2, h3, h4, h5⟩ := idxmaxFold_spec sil (List.range' 2 28) 2 hbd hsort
  refine ⟨rfl, rfl, rfl, rfl, ?_, ?_, ?_⟩
  · rw [htune]
    rcases h1 with h | h
    · rw [h]; decide
    · exact h
  · intro m hm
    rw [htune]
    exact h3 m hm
  · intro m hm heq
    rw [htune]
    rw [htune] at heq
    exact h5 m hm heq

theorem C8_witness :
    (evaluate_analyze_clustering (fun _ => (0:ℚ))).tuned_k =
      tune_clustering_hyperparameter (fun _ => (0:ℚ)) :=
  (C8_tune_silhouette_first_argmax (fun _ => (0:ℚ))).1

/-- C10: every randomized component is seeded: `trained_clustering_model`
passes `random_state = 42` to KMeans, and both `k_fold_cv_knn` (via `KFold`)
and `evaluate_analyze_knn` (via `train_test_split`) consult the seeded
shuffle collaborator only at seed `42` — so any two runs whose seeded
shuffles agree at seed `42` (in particular two runs of the same seeded
library shuffler) produce identical partitions, predictions and
accuracies. -/
theorem C10_seed_42_reproducibility :
    (∀ n : ℕ, (trained_clustering_model n).random_state = 42) ∧
    (∀ (rng rng' : ℤ → ℕ → List ℕ) (X : List (List ℚ)) (y : List ℤ) (nn : ℤ),
      rng 42 X.length = rng' 42 X.length →
      k_fold_cv_knn rng X y nn = k_fold_cv_knn rng' X y nn) ∧
    (∀ (rng rng' : ℤ → ℕ → List ℕ) (n : ℕ),
      rng 42 n = rng' 42 n →
      train_test_split_indices rng n = train_test_split_indices rng' n) ∧
    (∀ (rng rng' : ℤ → ℕ → List ℕ) (X : List (List ℚ)) (y : List ℤ),
      rng 42 X.length = rng' 42 X.length →
      evaluate_analyze_knn rng X y = evaluate_analyze_knn rng' X y) := by
  have hk : ∀ (rng rng' : ℤ → ℕ → List ℕ) (X : List (List ℚ)) (y : List ℤ) (nn : ℤ),
      rng 42 X.length = rng' 42 X.length →
      k_fold_cv_knn rng X y nn = k_fold_cv_knn rng' X y nn := by
    intro rng rng' X y nn h
    unfold k_fold_cv_knn
    rw [h]
  have hs : ∀ (rng rng' : ℤ → ℕ → List ℕ) (n : ℕ),
      rng 42 n = rng' 42 n →
      train_test_split_indices rng n = train_test_split_indices rng' n := by
    intro rng rng' n h
    unfold train_test_split_indices
    rw [h]
  refine ⟨fun n => rfl, hk, hs, ?_⟩
  intro rng rng' X y h
  simp only [evaluate_analyze_knn]
  rw [hs rng rng' X.length h, hk rng rng' X y 5 h]

theorem C10_witness : (trained_clustering_model 3).random_state = 42 :=
  C10_seed_42_reproducibility.1 3
